import Mathlib

/-!
Verification development for the OPSCURE sidecar agent (Go).
Shallow embedding of the stream ingestion/correlation engine
(server/go_agent/stream_manager.go), the correlation pipeline
(LogPatternMinerGo and friends), and the remediation workflow engine
(server/go_agent/main.go). Definitions mirror the Go source; theorems
settle the frozen claims about it.
-/

/-! ### Value-level model of IEEE-754 binary64 arithmetic

The Go code computes the post-truncation length of a flushed bundle with
float64 arithmetic. We model binary64 values by their exact rational value
(numerator/denominator pairs of naturals) and each arithmetic operation by
exact rational arithmetic followed by round-to-nearest, ties-to-even at 53
bits of precision. This is exact for the normal range, which covers every
quantity that occurs here; subnormals and overflow cannot occur at these
magnitudes and are not modelled. All recursions are fuel-based so that the
kernel can evaluate them. -/

/-- Fuel-bounded floor of log2 on naturals. With fuel at least the bit
length of the input this equals the floor of the base-2 logarithm. -/
def natLog2F : Nat → Nat → Nat
  | 0, _ => 0
  | f+1, n => if 2 ≤ n then natLog2F f (n / 2) + 1 else 0

/-- Floor of log2 of a natural number (4096 bits of fuel). -/
def natLog2 (n : Nat) : Nat := natLog2F 4096 n

/-- Least k with a * 2 ^ k ≥ b, fuel-bounded. -/
def leastPowF : Nat → Nat → Nat → Nat
  | 0, _, _ => 0
  | f+1, a, b => if b ≤ a then 0 else leastPowF f (2 * a) b + 1

/-- Least k with a * 2 ^ k ≥ b (4096 doublings of fuel). -/
def leastPow (a b : Nat) : Nat := leastPowF 4096 a b

/-- Floor of log2 of the positive rational a / b, as an integer. -/
def floorLog2 (a b : Nat) : Int :=
  if b ≤ a then Int.ofNat (natLog2 (a / b))
  else - Int.ofNat (leastPow a b)

/-- Round the nonnegative rational a / b to the nearest natural number,
ties to even. -/
def roundHalfEven (a b : Nat) : Nat :=
  let n := a / b
  let r := a % b
  if 2 * r < b then n
  else if b < 2 * r then n + 1
  else if n % 2 = 0 then n else n + 1

/-- Round the nonnegative rational a / b to the nearest binary64 value
(round to nearest, ties to even, 53-bit significand), returned as an exact
rational numerator/denominator pair. -/
def fround (a b : Nat) : Nat × Nat :=
  if a = 0 then (0, 1)
  else
    match (52 : Int) - floorLog2 a b with
    | Int.ofNat k => (roundHalfEven (a * 2 ^ k) b, 2 ^ k)
    | Int.negSucc k => (roundHalfEven a (b * 2 ^ (k + 1)) * 2 ^ (k + 1), 1)

/-- Exact conversion of a natural to binary64 (Go float64(n); exact below 2^53). -/
def f64ofNat (n : Nat) : Nat × Nat := fround n 1

/-- binary64 division. -/
def f64div (x y : Nat × Nat) : Nat × Nat := fround (x.1 * y.2) (x.2 * y.1)

/-- binary64 multiplication. -/
def f64mul (x y : Nat × Nat) : Nat × Nat := fround (x.1 * y.1) (x.2 * y.2)

/-- The binary64 value of the Go literal 0.9. -/
def f64lit0p9 : Nat × Nat := fround 9 10

/-- The post-truncation length computed by Flush in stream_manager.go:
ratio := float64(maxTokensPerRun) / float64(estimatedTokens);
newLen := int(float64(len) * ratio * 0.9).
Go multiplication is left-associative and int() truncates toward zero
(the operands here are nonnegative). The Go guard newLen < 0 is vacuous
over naturals. -/
def goTruncNewLen (len est maxTok : Nat) : Nat :=
  let r := f64div (f64ofNat maxTok) (f64ofNat est)
  let p1 := f64mul (f64ofNat len) r
  let p2 := f64mul p1 f64lit0p9
  p2.1 / p2.2

/-! ### Stream manager (server/go_agent/stream_manager.go)

RawLog wraps a loosely typed record; the records produced by
parseRawLogLine carry only string fields, so the Data map is modelled as
an association list from string keys to string values. Time is modelled
in nanoseconds (Go time.Duration units); the call to time.Now() inside
Ingest becomes an explicit now parameter. -/

/-- RawLog from stream_manager.go: a parsed record with its Data map. -/
structure RawLog where
  data : List (String × String)
deriving DecidableEq

/-- StreamConfig from stream_manager.go. The two duration fields are Go
float64 holding whole minute counts; they are modelled as naturals. -/
structure StreamConfig where
  maxLogsPerSecond : Nat
  maxBufferSize : Nat
  maxTokensPerRun : Nat
  maxStreamDurationMin : Nat
  minStreamDurationMin : Nat
deriving DecidableEq

/-- DefaultStreamConfig from stream_manager.go. -/
def defaultStreamConfig : StreamConfig :=
  { maxLogsPerSecond := 50
    maxBufferSize := 50
    maxTokensPerRun := 6000
    maxStreamDurationMin := 60
    minStreamDurationMin := 15 }

/-- The mutable part of StreamManager (buffer, StreamStats counters and
the admission window), with all time stamps in nanoseconds. -/
structure StreamState where
  buffer : List RawLog
  startTimeNs : Nat
  totalLogsIngested : Nat
  bufferFlushCount : Nat
  droppedLogs : Nat
  checkWindowStartNs : Nat
  logsInWindow : Nat
deriving DecidableEq

/-- NewStreamManager: empty buffer, zero counters, start and window stamps
taken from the current time. -/
def newStreamState (nowNs : Nat) : StreamState :=
  { buffer := []
    startTimeNs := nowNs
    totalLogsIngested := 0
    bufferFlushCount := 0
    droppedLogs := 0
    checkWindowStartNs := nowNs
    logsInWindow := 0 }

/-- IsExpired: elapsed minutes since start strictly greater than
maxStreamDurationMin. The Go code compares float64 minutes; at whole
nanosecond resolution this is the exact comparison below. -/
def isExpired (cfg : StreamConfig) (st : StreamState) (nowNs : Nat) : Bool :=
  decide (st.startTimeNs + cfg.maxStreamDurationMin * 60000000000 < nowNs)

/-- LogParser.ParseLogs: wraps each input map in a RawLog; the error
result is always nil in the source, so the Except is always ok. -/
def parseLogs (logs : List (List (String × String))) : Except String (List RawLog) :=
  .ok (logs.map RawLog.mk)

/-- The admission-window reset performed at the top of Ingest: whenever at
least one second has elapsed since checkWindowStart, both the window start
and the in-window counter are reset together. -/
def resetWindow (st : StreamState) (nowNs : Nat) : StreamState :=
  if 1000000000 ≤ nowNs - st.checkWindowStartNs then
    { st with checkWindowStartNs := nowNs, logsInWindow := 0 }
  else st

/-- Ingest from stream_manager.go. Returns the updated state and the
accepted flag. Mirrors the source order: expiry check (early return with
no counter change), window reset, quota check (drop), parse (drop on
error, which never happens), then append and count. -/
def ingest (cfg : StreamConfig) (st : StreamState) (logDict : List (String × String))
    (nowNs : Nat) : StreamState × Bool :=
  if isExpired cfg st nowNs then (st, false)
  else
    let st := resetWindow st nowNs
    if cfg.maxLogsPerSecond ≤ st.logsInWindow then
      ({ st with droppedLogs := st.droppedLogs + 1 }, false)
    else
      match parseLogs [logDict] with
      | .error _ => ({ st with droppedLogs := st.droppedLogs + 1 }, false)
      | .ok parsed =>
          ({ st with
              buffer := st.buffer ++ [parsed.headD ⟨[]⟩]
              logsInWindow := st.logsInWindow + 1
              totalLogsIngested := st.totalLogsIngested + 1 }, true)

/-- ShouldFlush: buffer length has reached maxBufferSize. -/
def shouldFlush (cfg : StreamConfig) (st : StreamState) : Bool :=
  decide (cfg.maxBufferSize ≤ st.buffer.length)

/-- deriveStreamPatterns: the distinct nonempty message values of the
buffered records. The Go code collects them in a set and emits them in map
iteration order; the model emits them in first-occurrence order. -/
def deriveStreamPatterns (logs : List RawLog) : List String :=
  (logs.filterMap (fun rl =>
    match rl.data.lookup "message" with
    | some m => if m = "" then none else some m
    | none => none)).dedup

/-- CorrelationBundle from stream_manager.go: the entry sequence plus the
Metadata map, whose three keys used by the code are modelled as explicit
optional fields (none means the key is absent). -/
structure CorrelationBundle where
  sequence : List RawLog
  patterns : List String
  originalTokenEst : Option Nat
  truncated : Option Bool
deriving DecidableEq

/-- BundleFactory.CreateBundle: sequence plus a metadata map holding only
the patterns. -/
def createBundle (logs : List RawLog) (patterns : List String) : CorrelationBundle :=
  { sequence := logs, patterns := patterns, originalTokenEst := none, truncated := none }

/-- Flush from stream_manager.go (the version whose truncated-flag update
is commented out). estimateTokens serializes the bundle to JSON and
divides the byte length by four; the serialization is external to this
model, so the estimator is passed in as a function of the bundle. Returns
none for an empty buffer, otherwise the published bundle and the cleared
state. Note that inside the truncation branch the source line setting
Metadata["truncated"] = true is commented out, so the flag keeps the
value false that was stored before the branch. -/
def flush (cfg : StreamConfig) (st : StreamState)
    (estimateTokens : CorrelationBundle → Nat) : Option (CorrelationBundle × StreamState) :=
  if st.buffer = [] then none
  else
    let patterns := deriveStreamPatterns st.buffer
    let bundle := createBundle st.buffer patterns
    let estimatedTokens := estimateTokens bundle
    let bundle := { bundle with originalTokenEst := some estimatedTokens, truncated := some false }
    let bundle :=
      if cfg.maxTokensPerRun < estimatedTokens then
        let newLen := goTruncNewLen bundle.sequence.length estimatedTokens cfg.maxTokensPerRun
        { bundle with
            sequence := bundle.sequence.take newLen
            originalTokenEst := some estimatedTokens }
      else bundle
    some (bundle, { st with buffer := [], bufferFlushCount := st.bufferFlushCount + 1 })

/-- Repeated Ingest of a batch of records at a common time stamp,
returning the final state and the number of accepted records. -/
def ingestMany (cfg : StreamConfig) (st : StreamState)
    (recs : List (List (String × String))) (nowNs : Nat) : StreamState × Nat :=
  match recs with
  | [] => (st, 0)
  | r :: rs =>
      let p := ingest cfg st r nowNs
      let q := ingestMany cfg p.1 rs nowNs
      (q.1, (if p.2 then 1 else 0) + q.2)

/-! ### Correlation pipeline (LogPatternMinerGo and friends) -/

/-- RawLogGo from the full correlation pipeline source. -/
structure RawLogGo where
  timestamp : String
  level : String
  service : String
  message : String
  errorClass : Option String
deriving DecidableEq

/-- LogPatternGo from the full correlation pipeline source. -/
structure LogPatternGo where
  pattern : String
  count : Nat
  firstOccurrence : String
  lastOccurrence : String
  errorClass : Option String
deriving DecidableEq

/-- The zero value of LogPatternGo, which a Go map lookup yields for an
absent key. -/
def zeroLogPattern : LogPatternGo :=
  { pattern := "", count := 0, firstOccurrence := "", lastOccurrence := "", errorClass := none }

/-- Go map indexing patterns[key] on the model map (association list);
absent keys give the zero value. -/
def lpGet (m : List (String × LogPatternGo)) (key : String) : LogPatternGo :=
  (m.lookup key).getD zeroLogPattern

/-- Go map assignment patterns[key] = v on the model map: replace the
existing binding in place, or append a new one. -/
def lpPut (m : List (String × LogPatternGo)) (key : String) (v : LogPatternGo) :
    List (String × LogPatternGo) :=
  if m.any (fun e => e.1 = key) then
    m.map (fun e => if e.1 = key then (key, v) else e)
  else m ++ [(key, v)]

/-- The body of the MinePatterns loop for one entry: fetch the group for
the message (zero value when new), initialize pattern text and first
occurrence when the stored pattern text is empty, then increment the
count, refresh the last occurrence and overwrite the error class. -/
def minePatternsStep (m : List (String × LogPatternGo)) (log : RawLogGo) :
    List (String × LogPatternGo) :=
  let p := lpGet m log.message
  let p := if p.pattern = "" then
      { p with pattern := log.message, firstOccurrence := log.timestamp }
    else p
  let p := { p with
      count := p.count + 1
      lastOccurrence := log.timestamp
      errorClass := log.errorClass }
  lpPut m log.message p

/-- LogPatternMinerGo.MinePatterns: fold the entries through the grouping
map and emit the groups. The Go code emits them in map iteration order;
the model emits them in insertion order. -/
def minePatterns (logs : List RawLogGo) : List LogPatternGo :=
  (logs.foldl minePatternsStep []).map Prod.snd

/-! ### Remediation apply handler (fixApplyHandler in main.go)

The handler traverses the decoded request body, a loosely typed JSON
value, with Go type assertions. JSON values are modelled by an inductive
type; Go interface type assertions become constructor matches. -/

/-- A decoded JSON value as Go json.Unmarshal produces it into
interface\x7b\x7d (numbers become float64; the model carries them as the
exact decimal text to stay out of float formatting, which no claim
touches). -/
inductive JVal where
  | null
  | jbool (b : Bool)
  | jnum (text : String)
  | jstr (s : String)
  | jarr (elems : List JVal)
  | jobj (fields : List (String × JVal))

/-- Go map lookup m[key] on a decoded JSON object. -/
def jGet (fields : List (String × JVal)) (key : String) : Option JVal :=
  fields.lookup key

/-- Go type assertion v.(map[string]interface\x7b\x7d). -/
def asObj : JVal → Option (List (String × JVal))
  | .jobj l => some l
  | _ => none

/-- fmt.Sprintf with the v verb on a decoded JSON value. Strings print
verbatim and booleans as true/false; the remaining shapes (numbers,
arrays, maps, nil) are abbreviated, since every command the handler
formats is a string. -/
def goFmt : JVal → String
  | .jstr s => s
  | .jbool true => "true"
  | .jbool false => "false"
  | .jnum t => t
  | .null => "<nil>"
  | .jarr _ => "[...]"
  | .jobj _ => "map[...]"

/-- The test the handler applies to the auto_heal_candidate field: the
assertion auto, ok := ...(bool) followed by ok and not auto, so the veto
fires only when the field is present, boolean and false. -/
def isAutoHealVeto : Option JVal → Bool
  | some (.jbool false) => true
  | _ => false

/-- The outcome of fixApplyHandler, seen from the outside. -/
inductive FixApplyResult where
  | httpError (msg : String) (code : Nat)
  | started (cmds : List String) (dryRun : Bool)
deriving DecidableEq

/-- The handler result together with its side effect on the package-level
lastRollback slot (none = slot untouched, some l = slot overwritten
with l). -/
structure FixApplyOutcome where
  result : FixApplyResult
  lastRollbackUpdate : Option (List String)
deriving DecidableEq

/-- The rollback-extraction block of fixApplyHandler: when the first
recommendation has a rollback object with a commands array, lastRollback
is reset and refilled from it (possibly to the empty list). -/
def extractRollback (first : List (String × JVal)) : Option (List String) :=
  match jGet first "rollback" with
  | some (.jobj rb) =>
      match jGet rb "commands" with
      | some (.jarr arr) => some (arr.map goFmt)
      | _ => none
  | _ => none

/-- The tail of fixApplyHandler once a nonempty recommendations array is
in hand: take the first element (the failed type assertion yields the nil
map), capture its rollback commands, then require an implementation
object with a nonempty commands array and start the workflow on those
commands. Every later recommendation is never read. -/
def fixApplyFromRecs (recs : List JVal) (dry : Bool) : FixApplyOutcome :=
  let first := (asObj (recs.headD .null)).getD []
  let rbU := extractRollback first
  match jGet first "implementation" with
  | some (.jobj impl) =>
      match jGet impl "commands" with
      | some (.jarr []) => ⟨.httpError "no commands found" 400, rbU⟩
      | some (.jarr cmdsAny) => ⟨.started (cmdsAny.map goFmt) dry, rbU⟩
      | _ => ⟨.httpError "no commands found" 400, rbU⟩
  | _ => ⟨.httpError "no implementation found" 400, rbU⟩

/-- fixApplyHandler from main.go, from the decoded request body on (a body
that fails to decode is answered with the invalid-body 400 before this
logic runs). Field traversal and status codes follow the source: missing
shapes give 400, an explicit auto_heal_candidate = false gives 403 before
the recommendations array is even read. -/
def fixApplyHandler (aiResponse : List (String × JVal)) (dry : Bool) : FixApplyOutcome :=
  match jGet aiResponse "analyze_response" with
  | some (.jobj analyze) =>
      match jGet analyze "recommendation" with
      | some (.jobj recBlock) =>
          if isAutoHealVeto (jGet recBlock "auto_heal_candidate") then
            ⟨.httpError "AI marked fix unsafe" 403, none⟩
          else
            match jGet recBlock "recommendations" with
            | some (.jarr []) => ⟨.httpError "no recommendations found" 400, none⟩
            | some (.jarr recs) => fixApplyFromRecs recs dry
            | _ => ⟨.httpError "no recommendations found" 400, none⟩
      | _ => ⟨.httpError "missing recommendation block" 400, none⟩
  | _ => ⟨.httpError "missing analyze_response" 400, none⟩

/-! ### Remediation workflow engine (runFixWorkflow in main.go)

The workflow runs external git probes and shell commands; those leave the
model as an environment: the detected default branch, the push-access
probe result, the workspace-absoluteness check and an execution oracle
giving each executed command (numbered in execution order) its outcome,
none for exit status zero or some message for a failure. Command output
piped back by streamPipe runs on separate goroutines and interleaves
nondeterministically with the workflow broadcasts, so only the
broadcastFix calls made by runFixWorkflow itself are modelled. The POSIX
execution path is modelled (on Windows the code first locates Git Bash).
The recursion of runFixWorkflow is not structurally bounded, so the model
takes fuel; a none result means the fuel ran out. -/

/-- strings.ToLower on the character list model of strings. -/
def strLower (s : String) : String := ⟨s.data.map Char.toLower⟩

/-- strings.TrimSpace on the character list model of strings. -/
def strTrim (s : String) : String :=
  ⟨((s.data.dropWhile Char.isWhitespace).reverse.dropWhile Char.isWhitespace).reverse⟩

/-- The allowedPrefixes package variable from main.go. -/
def allowedPrefixes : List String :=
  ["git ", "sed ", "echo ", "docker ", "kubectl "]

/-- isAllowed from main.go: the trimmed, lowercased command starts with
one of the allowlisted prefixes. -/
def isAllowed (cmd : String) : Bool :=
  let l := strLower (strTrim cmd)
  allowedPrefixes.any (fun p => p.data.isPrefixOf l.data)

/-- strings.ReplaceAll scanning a character list left to right: at a match
of the (nonempty) pattern, emit the replacement and resume after the
matched characters without rescanning the replacement. Fuel-bounded; one
character of the input is consumed per step, so length + 1 fuel is
enough. -/
def replaceAllF : Nat → List Char → List Char → List Char → List Char
  | 0, rest, _, _ => rest
  | _+1, [], _, _ => []
  | f+1, a :: rest, pat, rep =>
      if pat.isPrefixOf (a :: rest) then
        rep ++ replaceAllF f (List.drop pat.length (a :: rest)) pat rep
      else a :: replaceAllF f rest pat rep

/-- strings.ReplaceAll on strings. The empty-pattern case of Go (which
splices the replacement between all characters) never occurs here and is
modelled as the identity. -/
def replaceAll (s pat rep : String) : String :=
  match pat.data with
  | [] => s
  | _ => ⟨replaceAllF (s.data.length + 1) s.data pat.data rep.data⟩

/-- The branch rewriting loop at the top of runFixWorkflow: six literal
substitutions replacing master/main checkout, pull and push targets by the
detected default branch. -/
def rewriteCmd (branch c : String) : String :=
  let c := replaceAll c "git checkout master" ("git checkout " ++ branch)
  let c := replaceAll c "git pull origin master" ("git pull origin " ++ branch)
  let c := replaceAll c "git push origin master" ("git push origin " ++ branch)
  let c := replaceAll c "git checkout main" ("git checkout " ++ branch)
  let c := replaceAll c "git pull origin main" ("git pull origin " ++ branch)
  let c := replaceAll c "git push origin main" ("git push origin " ++ branch)
  c

/-- The external world the workflow interacts with. -/
structure FixEnv where
  branch : String
  pushAccessOk : Bool
  workspaceAbs : Bool
  exec : Nat → String → Option String
  lastRollback : List String

/-- One mutually recursive evaluator for runFixWorkflow, structural in the
fuel (every recursive call spends one unit). Mode true is a fresh
invocation: broadcast the detected branch, rewrite the commands, run the
push-access gate (skipped in dry-run) and the workspace gate, then enter
the loop. Mode false is the per-command loop: a command outside the
allowlist broadcasts BLOCKED and returns at once, with no close sentinel;
a dry run broadcasts RUN and DRY-RUN and moves on; otherwise the command
is executed, and on failure the error and AUTO-ROLLBACK are broadcast, the
captured rollback commands (when nonempty) are replayed through a fresh
non-dry invocation, and WORKFLOW STOPPED plus the close sentinel end the
trace. An exhausted loop broadcasts DONE, RESTART_APP and the sentinel.
Results pair the broadcast trace with the next execution-oracle index;
none means the fuel ran out. -/
def fixGo : Nat → Bool → FixEnv → Bool → List String → Nat → Option (List String × Nat)
  | 0, _, _, _, _, _ => none
  | fuel+1, true, env, dry, cmds, k =>
      let rcmds := cmds.map (rewriteCmd env.branch)
      let hdr := "INFO: detected default branch → " ++ env.branch
      if dry = false ∧ env.pushAccessOk = false then
        some ([hdr, "ERROR: No push permission for this repository. Aborting.", "__CLOSE__"], k)
      else if env.workspaceAbs = false then
        some ([hdr, "INVALID WORKSPACE PATH", "__CLOSE__"], k)
      else
        match fixGo fuel false env dry rcmds k with
        | none => none
        | some (t, j) => some (hdr :: t, j)
  | _+1, false, _, _, [], k => some (["DONE", "RESTART_APP", "__CLOSE__"], k)
  | fuel+1, false, env, dry, c :: rest, k =>
      if isAllowed c = false then some (["BLOCKED: " ++ c], k)
      else if dry then
        match fixGo fuel false env dry rest k with
        | none => none
        | some (t, j) => some (("RUN: " ++ c) :: "DRY-RUN" :: t, j)
      else
        match env.exec k c with
        | none =>
            match fixGo fuel false env dry rest (k + 1) with
            | none => none
            | some (t, j) => some (("RUN: " ++ c) :: t, j)
        | some msg =>
            match env.lastRollback with
            | [] =>
                some (["RUN: " ++ c, "ERROR: " ++ msg, "AUTO-ROLLBACK",
                       "WORKFLOW STOPPED", "__CLOSE__"], k + 1)
            | rb =>
                match fixGo fuel true env false rb (k + 1) with
                | none => none
                | some (t, j) =>
                    some (["RUN: " ++ c, "ERROR: " ++ msg, "AUTO-ROLLBACK"] ++ t ++
                          ["WORKFLOW STOPPED", "__CLOSE__"], j)

/-- runFixWorkflow from main.go: a fresh invocation with the execution
oracle starting at index zero, keeping only the broadcast trace. -/
def runFixWorkflow (env : FixEnv) (fuel : Nat) (cmds : List String) (dry : Bool) :
    Option (List String) :=
  match fixGo fuel true env dry cmds 0 with
  | none => none
  | some (t, _) => some t

/-! ### Concrete scenario inputs used by the claim theorems -/

/-- A well-formed parsed record as produced by parseRawLogLine. -/
def sampleRecord : List (String × String) :=
  [("timestamp", "2026-01-01T00:00:00Z"), ("level", "ERROR"),
   ("service", "api"), ("message", "m")]

/-- Fifty buffered entries, the Scenario C buffer. -/
def c1Buffer : List RawLog := List.replicate 50 (RawLog.mk sampleRecord)

/-- A stream state holding the Scenario C buffer. -/
def c1State : StreamState :=
  { buffer := c1Buffer
    startTimeNs := 0
    totalLogsIngested := 50
    bufferFlushCount := 0
    droppedLogs := 0
    checkWindowStartNs := 0
    logsInWindow := 0 }

/-- A workflow environment whose forward command fails twice (indices 0
and 1 of the execution order) and succeeds afterwards, with a captured
rollback command. -/
def c3Env : FixEnv :=
  { branch := "main"
    pushAccessOk := true
    workspaceAbs := true
    exec := fun k _ => if k < 2 then some "exit status 1" else none
    lastRollback := ["git rb"] }

/-- A workflow environment in which every execution fails, with a captured
rollback command that therefore also always fails. -/
def divEnv : FixEnv :=
  { branch := "main"
    pushAccessOk := true
    workspaceAbs := true
    exec := fun _ _ => some "exit status 1"
    lastRollback := ["git rb"] }

/-- A benign workflow environment: every command succeeds, nothing
captured for rollback. -/
def c4Env : FixEnv :=
  { branch := "main"
    pushAccessOk := true
    workspaceAbs := true
    exec := fun _ _ => none
    lastRollback := [] }

/-- A workflow environment whose first executed command fails, with no
rollback captured. -/
def c5Env : FixEnv :=
  { branch := "main"
    pushAccessOk := true
    workspaceAbs := true
    exec := fun _ _ => some "exit status 1"
    lastRollback := [] }

/-- A workflow environment for witnesses: executions fail with a fixed
message and a rollback command is captured. -/
def wEnv : FixEnv :=
  { branch := "main"
    pushAccessOk := true
    workspaceAbs := true
    exec := fun _ _ => some "boom"
    lastRollback := ["git r"] }

/-- An AI response whose recommendation block vetoes auto-healing. -/
def c6Resp : List (String × JVal) :=
  [("analyze_response", .jobj
    [("recommendation", .jobj
      [("auto_heal_candidate", .jbool false),
       ("recommendations", .jarr
         [.jobj [("implementation", .jobj [("commands", .jarr [.jstr "git pull"])])]])])])]

/-- A first recommendation with implementation and rollback commands. -/
def recA : JVal :=
  .jobj [("implementation", .jobj [("commands", .jarr [.jstr "git pull"])]),
         ("rollback", .jobj [("commands", .jarr [.jstr "git reset --hard"])])]

/-- A second recommendation with different commands, which the handler
must ignore. -/
def recB : JVal :=
  .jobj [("implementation", .jobj [("commands", .jarr [.jstr "echo second"])])]

/-- The RUN and DRY-RUN progress markers the per-command loop emits for a
list of commands it walks through (dry-run adds a DRY-RUN line after each
RUN line). -/
def runMarkers (dry : Bool) : List String → List String
  | [] => []
  | d :: rest =>
      ("RUN: " ++ d) :: (if dry then "DRY-RUN" :: runMarkers dry rest else runMarkers dry rest)

/-- The broadcast trace of the depth-two rollback run used against claim
C3: forward failure, rollback failure, second rollback success. -/
def c3Trace : List String :=
  ["INFO: detected default branch → main",
   "RUN: git a", "ERROR: exit status 1", "AUTO-ROLLBACK",
   "INFO: detected default branch → main",
   "RUN: git rb", "ERROR: exit status 1", "AUTO-ROLLBACK",
   "INFO: detected default branch → main",
   "RUN: git rb", "DONE", "RESTART_APP", "__CLOSE__",
   "WORKFLOW STOPPED", "__CLOSE__",
   "WORKFLOW STOPPED", "__CLOSE__"]

/-! ### Claim theorems -/

/-- C1: on the Scenario C flush (50 buffered entries, token estimate 9000,
maxTokensPerRun 6000) the code truncates the sequence to its first 29
entries and records original_token_est = 9000, but the bundle metadata
keeps truncated = false: the line setting the flag to true is commented
out in the source, so the truncated = true part of the claim fails. -/
theorem flush_scenarioC_keeps_truncated_false :
    ∃ b st2, flush defaultStreamConfig c1State (fun _ => 9000) = some (b, st2) ∧
      b.sequence = c1Buffer.take 29 ∧
      b.sequence.length = 29 ∧
      b.originalTokenEst = some 9000 ∧
      b.truncated = some false ∧
      st2.buffer = [] := by
  refine ⟨_, _, rfl, ?_, ?_, ?_, ?_, ?_⟩ <;> decide

/-- C2 counterexample: a call to Ingest on an expired stream (start time 0,
now 61 minutes later) is rejected yet leaves droppedLogs unchanged, so
accepted plus the droppedLogs increase is 0, not 1. -/
theorem ingest_expired_breaks_accounting :
    (ingest defaultStreamConfig (newStreamState 0) sampleRecord 3660000000000).2 = false ∧
    ¬ ((if (ingest defaultStreamConfig (newStreamState 0) sampleRecord 3660000000000).2
          then 1 else 0) +
        ((ingest defaultStreamConfig (newStreamState 0) sampleRecord 3660000000000).1.droppedLogs
          - (newStreamState 0).droppedLogs) = 1) := by
  decide

/-- The window reset leaves the dropped counter alone. -/
theorem resetWindow_droppedLogs (st : StreamState) (now : Nat) :
    (resetWindow st now).droppedLogs = st.droppedLogs := by
  unfold resetWindow; split_ifs <;> rfl

/-- C2 amended: on a non-expired stream each Ingest call balances exactly
(accepted + droppedLogs increase = 1, every rejection incrementing
droppedLogs by exactly one), while a call on an expired stream returns the
state unchanged, so droppedLogs is not incremented there. -/
theorem ingest_accounting :
    ∀ cfg st r now,
      (isExpired cfg st now = true → ingest cfg st r now = (st, false)) ∧
      (isExpired cfg st now = false →
        (if (ingest cfg st r now).2 then 1 else 0) + (ingest cfg st r now).1.droppedLogs
          = 1 + st.droppedLogs) := by
  intro cfg st r now
  constructor
  · intro h
    simp [ingest, h]
  · intro h
    simp only [ingest, h, Bool.false_eq_true, if_false, parseLogs]
    by_cases hq : cfg.maxLogsPerSecond ≤ (resetWindow st now).logsInWindow
    · rw [if_pos hq]
      simp [resetWindow_droppedLogs]
      omega
    · rw [if_neg hq]
      simp [resetWindow_droppedLogs]

theorem ingest_accounting_witness :
    (if (ingest defaultStreamConfig (newStreamState 0) sampleRecord 0).2 then 1 else 0) +
        (ingest defaultStreamConfig (newStreamState 0) sampleRecord 0).1.droppedLogs
      = 1 + (newStreamState 0).droppedLogs :=
  (ingest_accounting defaultStreamConfig (newStreamState 0) sampleRecord 0).2 (by decide)

/-- C6: an AI response whose recommendation block carries an explicit
auto_heal_candidate = false is answered with the distinct 403 status
before the recommendations array is read: no rollback is captured, no
workflow is started, and the missing-field paths use 400 instead. -/
theorem fixApply_auto_heal_veto :
    ∀ (aiResponse : List (String × JVal)) (analyze recBlock : List (String × JVal)) (dry : Bool),
      jGet aiResponse "analyze_response" = some (.jobj analyze) →
      jGet analyze "recommendation" = some (.jobj recBlock) →
      jGet recBlock "auto_heal_candidate" = some (.jbool false) →
      fixApplyHandler aiResponse dry = ⟨.httpError "AI marked fix unsafe" 403, none⟩ ∧
      (∀ cmds d, (fixApplyHandler aiResponse dry).result ≠ .started cmds d) ∧
      (403 : Nat) ≠ 400 ∧
      fixApplyHandler [] dry = ⟨.httpError "missing analyze_response" 400, none⟩ := by
  intro aiResponse analyze recBlock dry h1 h2 h3
  have e : fixApplyHandler aiResponse dry = ⟨.httpError "AI marked fix unsafe" 403, none⟩ := by
    simp only [fixApplyHandler, h1, h2, h3, isAutoHealVeto, if_true]
  refine ⟨e, ?_, by decide, rfl⟩
  intro cmds d
  rw [e]
  simp

theorem fixApply_auto_heal_veto_witness :
    fixApplyHandler c6Resp false = ⟨.httpError "AI marked fix unsafe" 403, none⟩ := by
  exact (fixApply_auto_heal_veto c6Resp _ _ false rfl rfl rfl).1

/-- C9: two records with identical message text, one ERROR and one WARN,
are mined into a single LogPattern with count 2 whose error class is the
one carried by the entry folded in last. -/
theorem minePatterns_merges_identical_messages :
    ∀ r1 r2 : RawLogGo, r1.level = "ERROR" → r2.level = "WARN" →
      r1.message = r2.message →
      (minePatterns [r1, r2]).length = 1 ∧
      ∀ p ∈ minePatterns [r1, r2], p.count = 2 ∧ p.errorClass = r2.errorClass := by
  intro r1 r2 hl1 hl2 hm
  obtain ⟨t1, l1, s1, m1, ec1⟩ := r1
  obtain ⟨t2, l2, s2, m2, ec2⟩ := r2
  simp only at hm
  subst hm
  by_cases h0 : m1 = ""
  · subst h0
    simp [minePatterns, minePatternsStep, lpGet, lpPut, zeroLogPattern, List.lookup]
  · simp [minePatterns, minePatternsStep, lpGet, lpPut, zeroLogPattern, List.lookup, h0]

theorem minePatterns_merges_identical_messages_witness :
    (minePatterns [⟨"t1", "ERROR", "s", "boom", some "Error"⟩,
                   ⟨"t2", "WARN", "s", "boom", some "Warning"⟩]).length = 1 ∧
    ∀ p ∈ minePatterns [⟨"t1", "ERROR", "s", "boom", some "Error"⟩,
                        ⟨"t2", "WARN", "s", "boom", some "Warning"⟩],
      p.count = 2 ∧ p.errorClass = some "Warning" :=
  minePatterns_merges_identical_messages _ _ rfl rfl rfl

/-- C10: the remediation apply handler reads only the head of the
recommendations array: the outcome is independent of every later
recommendation, and when the first recommendation holds an implementation
object with a nonempty commands array, exactly those commands (and that
the rollback capture of that same recommendation) are used. -/
theorem fixApply_uses_only_first_recommendation :
    (∀ (r : JVal) (rest rest' : List JVal) (dry : Bool),
        fixApplyFromRecs (r :: rest) dry = fixApplyFromRecs (r :: rest') dry) ∧
    (∀ (r : JVal) (rest : List JVal) (dry : Bool) (impl : List (String × JVal))
        (cmdsAny : List JVal),
        jGet ((asObj r).getD []) "implementation" = some (.jobj impl) →
        jGet impl "commands" = some (.jarr cmdsAny) →
        cmdsAny ≠ [] →
        (fixApplyFromRecs (r :: rest) dry).result = .started (cmdsAny.map goFmt) dry ∧
        (fixApplyFromRecs (r :: rest) dry).lastRollbackUpdate =
          extractRollback ((asObj r).getD [])) := by
  constructor
  · intro r rest rest' dry
    rfl
  · intro r rest dry impl cmdsAny h1 h2 h3
    match cmdsAny, h3 with
    | c :: cs, _ =>
      constructor
      · simp only [fixApplyFromRecs, List.headD, h1, h2]
      · simp only [fixApplyFromRecs, List.headD, h1, h2]

theorem fixApply_uses_only_first_recommendation_witness :
    fixApplyFromRecs [recA, recB] false = fixApplyFromRecs [recA] false ∧
    (fixApplyFromRecs [recA, recB] false).result = .started ["git pull"] false := by
  constructor
  · exact fixApply_uses_only_first_recommendation.1 recA [recB] [] false
  · have h := (fixApply_uses_only_first_recommendation.2 recA [recB] false
      [("commands", .jarr [.jstr "git pull"])] [.jstr "git pull"] rfl rfl (by simp)).1
    simpa [goFmt] using h

/-- On a non-expired stream, inside the current admission window and with
enough quota left, a whole batch is accepted: the records land at the end
of the buffer in order and the window counter and total advance by the
batch length, with nothing dropped. -/
theorem ingestMany_all_accepted :
    ∀ (recs : List (List (String × String))) (cfg : StreamConfig) (st : StreamState) (now : Nat),
      isExpired cfg st now = false →
      now - st.checkWindowStartNs < 1000000000 →
      st.logsInWindow + recs.length ≤ cfg.maxLogsPerSecond →
      ingestMany cfg st recs now =
        ({ st with
            buffer := st.buffer ++ recs.map RawLog.mk
            logsInWindow := st.logsInWindow + recs.length
            totalLogsIngested := st.totalLogsIngested + recs.length }, recs.length) := by
  intro recs
  induction recs with
  | nil =>
    intro cfg st now h hw hq
    simp [ingestMany]
  | cons r rs ih =>
    intro cfg st now h hw hq
    have hr : resetWindow st now = st := by
      unfold resetWindow
      rw [if_neg (by omega)]
    have hlt : ¬ cfg.maxLogsPerSecond ≤ st.logsInWindow := by
      simp only [List.length_cons] at hq
      omega
    simp only [ingestMany, ingest, h, Bool.false_eq_true, if_false, hr, parseLogs]
    rw [if_neg hlt]
    rw [ih cfg _ now (by simpa using h) (by simpa using hw)
        (by simp only [List.length_cons] at hq; simpa using (by omega : st.logsInWindow + 1 + rs.length ≤ cfg.maxLogsPerSecond))]
    simp [List.append_assoc]
    constructor
    · omega
    · omega

/-- C7: admission uses a fixed one-second window: the window start and the
counter reset together exactly when at least a second has elapsed, a call
on a fresh window leaves the state untouched, a non-expired record is
admitted precisely while the post-reset counter is below maxLogsPerSecond,
a non-expired rejection raises droppedLogs by exactly one, and with
maxLogsPerSecond = 50 the 51st record of a single window is rejected with
droppedLogs going from 0 to 1. -/
theorem fixed_window_admission :
    (∀ (st : StreamState) (now : Nat), 1000000000 ≤ now - st.checkWindowStartNs →
        (resetWindow st now).checkWindowStartNs = now ∧ (resetWindow st now).logsInWindow = 0) ∧
    (∀ (st : StreamState) (now : Nat), now - st.checkWindowStartNs < 1000000000 →
        resetWindow st now = st) ∧
    (∀ (cfg : StreamConfig) (st : StreamState) (r : List (String × String)) (now : Nat),
        isExpired cfg st now = false →
        ((ingest cfg st r now).2 = true ↔
          (resetWindow st now).logsInWindow < cfg.maxLogsPerSecond)) ∧
    (∀ (cfg : StreamConfig) (st : StreamState) (r : List (String × String)) (now : Nat),
        isExpired cfg st now = false → (ingest cfg st r now).2 = false →
        (ingest cfg st r now).1.droppedLogs = st.droppedLogs + 1) ∧
    ((ingestMany defaultStreamConfig (newStreamState 0) (List.replicate 51 sampleRecord) 0).2 = 50 ∧
     (ingestMany defaultStreamConfig (newStreamState 0) (List.replicate 51 sampleRecord) 0).1.droppedLogs = 1 ∧
     (ingest defaultStreamConfig
        (ingestMany defaultStreamConfig (newStreamState 0) (List.replicate 50 sampleRecord) 0).1
        sampleRecord 0).2 = false) := by
  refine ⟨?_, ?_, ?_, ?_, ?_⟩
  · intro st now hw
    unfold resetWindow
    rw [if_pos hw]
    exact ⟨rfl, rfl⟩
  · intro st now hw
    unfold resetWindow
    rw [if_neg (by omega)]
  · intro cfg st r now h
    simp only [ingest, h, Bool.false_eq_true, if_false, parseLogs]
    by_cases hq : cfg.maxLogsPerSecond ≤ (resetWindow st now).logsInWindow
    · rw [if_pos hq]
      simp
      omega
    · rw [if_neg hq]
      simp
      omega
  · intro cfg st r now h hrej
    simp only [ingest, h, Bool.false_eq_true, if_false, parseLogs] at hrej ⊢
    by_cases hq : cfg.maxLogsPerSecond ≤ (resetWindow st now).logsInWindow
    · rw [if_pos hq] at hrej ⊢
      simp [resetWindow_droppedLogs]
    · rw [if_neg hq] at hrej
      simp at hrej
  · refine ⟨?_, ?_, ?_⟩ <;> decide

theorem fixed_window_admission_witness :
    resetWindow (newStreamState 0) 0 = newStreamState 0 ∧
    ((ingest defaultStreamConfig (newStreamState 0) sampleRecord 0).2 = true ↔
      (resetWindow (newStreamState 0) 0).logsInWindow < 50) := by
  constructor
  · exact fixed_window_admission.2.1 (newStreamState 0) 0 (by decide)
  · exact fixed_window_admission.2.2.1 defaultStreamConfig (newStreamState 0) sampleRecord 0 (by decide)

/-- C8: starting from a fresh stream, ingesting exactly maxBufferSize (50)
well-formed records inside one admission window accepts all of them with
nothing dropped, makes ShouldFlush true, and the following Flush (whose
token estimate stays within budget) yields a bundle carrying all 50
entries and leaves the buffer empty, after which Flush returns nothing. -/
theorem stream_scenarioA :
    ∀ (recs : List (List (String × String))) (est : CorrelationBundle → Nat),
      recs.length = 50 →
      est (createBundle (recs.map RawLog.mk) (deriveStreamPatterns (recs.map RawLog.mk))) ≤ 6000 →
      (ingestMany defaultStreamConfig (newStreamState 0) recs 0).2 = 50 ∧
      (ingestMany defaultStreamConfig (newStreamState 0) recs 0).1.droppedLogs = 0 ∧
      shouldFlush defaultStreamConfig
        (ingestMany defaultStreamConfig (newStreamState 0) recs 0).1 = true ∧
      ∃ b st2,
        flush defaultStreamConfig (ingestMany defaultStreamConfig (newStreamState 0) recs 0).1 est
          = some (b, st2) ∧
        b.sequence.length = 50 ∧ b.truncated = some false ∧ st2.buffer = [] ∧
        flush defaultStreamConfig st2 est = none := by
  intro recs est hlen hest
  have hall := ingestMany_all_accepted recs defaultStreamConfig (newStreamState 0) 0
    (by decide) (by decide) (by simp [hlen, newStreamState, defaultStreamConfig])
  rw [hall]
  have hne : recs.map RawLog.mk ≠ [] := by
    intro hcon
    have := congrArg List.length hcon
    simp [hlen] at this
  refine ⟨by simp [hlen], by simp [newStreamState], ?_, ?_⟩
  · simp [shouldFlush, newStreamState, defaultStreamConfig, hlen]
  · simp only [flush, newStreamState, List.nil_append]
    rw [if_neg hne]
    rw [if_neg (by simpa [defaultStreamConfig] using Nat.not_lt.mpr hest)]
    refine ⟨_, _, rfl, ?_, rfl, rfl, rfl⟩
    simp [createBundle, hlen]

theorem stream_scenarioA_witness :
    (ingestMany defaultStreamConfig (newStreamState 0)
        (List.replicate 50 sampleRecord) 0).2 = 50 ∧
    shouldFlush defaultStreamConfig
      (ingestMany defaultStreamConfig (newStreamState 0) (List.replicate 50 sampleRecord) 0).1
        = true ∧
    ∃ b st2,
      flush defaultStreamConfig
          (ingestMany defaultStreamConfig (newStreamState 0) (List.replicate 50 sampleRecord) 0).1
          (fun _ => 1250)
        = some (b, st2) ∧
      b.sequence.length = 50 ∧ st2.buffer = [] ∧
      flush defaultStreamConfig st2 (fun _ => 1250) = none := by
  have h := stream_scenarioA (List.replicate 50 sampleRecord) (fun _ => 1250)
    (by decide) (by decide)
  obtain ⟨h1, _, h3, b, st2, h4, h5, _, h7, h8⟩ := h
  exact ⟨h1, h3, b, st2, h4, h5, h7, h8⟩

/-- C4: the blocked-command terminal path of runFixWorkflow broadcasts
only the BLOCKED line and returns at once, so the progress trace of a
dry run on a single disallowed command does not end with the __CLOSE__
sentinel (in the source this return carries no close broadcast, unlike
every other terminal path). -/
theorem workflow_blocked_path_skips_close :
    ∃ t, runFixWorkflow c4Env 5 ["rm -rf /"] true = some t ∧
      "BLOCKED: rm -rf /" ∈ t ∧ "__CLOSE__" ∉ t ∧ t.getLast? ≠ some "__CLOSE__" := by
  refine ⟨["INFO: detected default branch → main", "BLOCKED: rm -rf /"], ?_, ?_, ?_, ?_⟩ <;>
    decide

/-- C5 counterexample: a non-dry command list that contains the
disallowed command rm -rf / but whose earlier command fails: the run stops
at the failing command, so no BLOCKED line for rm -rf / is ever broadcast,
contradicting the claim read over every command list. -/
theorem workflow_blocked_not_always_reached :
    isAllowed "rm -rf /" = false ∧
    runFixWorkflow c5Env 5 ["git a", "rm -rf /"] false =
      some ["INFO: detected default branch → main", "RUN: git a", "ERROR: exit status 1",
            "AUTO-ROLLBACK", "WORKFLOW STOPPED", "__CLOSE__"] ∧
    "BLOCKED: rm -rf /" ∉
      ["INFO: detected default branch → main", "RUN: git a", "ERROR: exit status 1",
       "AUTO-ROLLBACK", "WORKFLOW STOPPED", "__CLOSE__"] := by
  refine ⟨?_, ?_, ?_⟩ <;> decide

/-- The per-command loop reaches the first disallowed command: all earlier
commands are allowed and, outside dry-run, exit cleanly, so the loop emits
their RUN (and DRY-RUN) markers, then stops at the disallowed command with
only its BLOCKED line; nothing at or after that position runs. -/
theorem fixGo_loop_blocked :
    ∀ (pre : List String) (env : FixEnv) (dry : Bool) (c : String) (post : List String)
      (k fuel : Nat),
      isAllowed c = false →
      (∀ i (h : i < pre.length), isAllowed (pre.get ⟨i, h⟩) = true ∧
          (dry = true ∨ env.exec (k + i) (pre.get ⟨i, h⟩) = none)) →
      pre.length + 1 ≤ fuel →
      fixGo fuel false env dry (pre ++ c :: post) k =
        some (runMarkers dry pre ++ ["BLOCKED: " ++ c],
              k + (if dry then 0 else pre.length)) := by
  intro pre
  induction pre with
  | nil =>
    intro env dry c post k fuel hc hpre hf
    obtain ⟨f, rfl⟩ : ∃ f, fuel = f + 1 := ⟨fuel - 1, by omega⟩
    simp [fixGo, hc, runMarkers]
  | cons d pre ih =>
    intro env dry c post k fuel hc hpre hf
    obtain ⟨f, rfl⟩ : ∃ f, fuel = f + 1 := ⟨fuel - 1, by omega⟩
    have hd := hpre 0 (by simp)
    simp only [List.get] at hd
    simp only [List.cons_append, fixGo, hd.1, List.append_eq]
    by_cases hdry : dry
    · subst hdry
      rw [ih env true c post k f hc
        (by intro i h; simpa using (hpre (i + 1) (by simpa using h)).imp id id) (by simp at hf; omega)]
      simp [runMarkers]
    · replace hdry : dry = false := by simpa using hdry
      subst hdry
      have hx : env.exec k d = none := by
        rcases hd.2 with h | h
        · exact absurd h (by simp)
        · simpa using h
      rw [hx]
      have hpre' : ∀ i (h : i < pre.length), isAllowed (pre.get ⟨i, h⟩) = true ∧
          (false = true ∨ env.exec ((k + 1) + i) (pre.get ⟨i, h⟩) = none) := by
        intro i h
        have := hpre (i + 1) (by simpa using h)
        simp only [List.get] at this
        have harith : k + (i + 1) = (k + 1) + i := by omega
        rw [harith] at this
        exact this
      rw [ih env false c post (k + 1) f hc hpre' (by simp at hf; omega)]
      simp only [runMarkers, if_false, Bool.false_eq_true, ite_false]
      have : (k + 1) + pre.length = k + (pre.length + 1) := by omega
      rw [this]
      simp

/-- C5 amended: whenever the remediation run reaches a disallowed command
(the workflow gates pass, here meaning dry-run or push access plus an
absolute workspace, and every earlier rewritten command is allowed and, in
non-dry mode, exits cleanly), it halts exactly there: the broadcast trace
is the branch header, the RUN (and DRY-RUN) markers of the earlier
commands, then a BLOCKED line naming the offending command, and no
command at or after that position is executed or dry-run-marked. In all
cases a disallowed command itself is never executed. -/
theorem workflow_halts_at_disallowed :
    ∀ (env : FixEnv) (dry : Bool) (cmds pre : List String) (c : String) (post : List String)
      (fuel : Nat),
      cmds.map (rewriteCmd env.branch) = pre ++ c :: post →
      (dry = true ∨ env.pushAccessOk = true) →
      env.workspaceAbs = true →
      isAllowed c = false →
      (∀ i (h : i < pre.length), isAllowed (pre.get ⟨i, h⟩) = true ∧
          (dry = true ∨ env.exec i (pre.get ⟨i, h⟩) = none)) →
      pre.length + 2 ≤ fuel →
      runFixWorkflow env fuel cmds dry =
        some (("INFO: detected default branch → " ++ env.branch) ::
              (runMarkers dry pre ++ ["BLOCKED: " ++ c])) := by
  intro env dry cmds pre c post fuel hmap hgate hws hc hpre hf
  obtain ⟨f, rfl⟩ : ∃ f, fuel = f + 1 := ⟨fuel - 1, by omega⟩
  unfold runFixWorkflow
  simp only [fixGo, hmap]
  rw [if_neg (by rcases hgate with h | h <;> simp [h]), if_neg (by simp [hws])]
  rw [fixGo_loop_blocked pre env dry c post 0 f hc
    (by intro i h; simpa using hpre i h) (by omega)]

theorem workflow_halts_at_disallowed_witness :
    runFixWorkflow c4Env 5 ["git ok", "rm -rf /"] false =
      some ["INFO: detected default branch → main", "RUN: git ok", "BLOCKED: rm -rf /"] := by
  have h := workflow_halts_at_disallowed c4Env false ["git ok", "rm -rf /"] ["git ok"]
    "rm -rf /" [] 5 (by decide) (by right; rfl) rfl (by decide) (by decide) (by decide)
  simpa [runMarkers] using h

/-- C3 counterexample: with a rollback command that fails on its first
replay and succeeds on the second, the run shows three workflow
invocations (three branch headers) and two AUTO-ROLLBACK broadcasts: the
failure inside the first rollback invocation triggers a further recursive
rollback invocation, so the recursion is not bounded by one recovery
level. -/
theorem workflow_rollback_depth_two :
    runFixWorkflow c3Env 10 ["git a"] false = some c3Trace ∧
    c3Trace.count "INFO: detected default branch → main" = 3 ∧
    c3Trace.count "AUTO-ROLLBACK" = 2 := by
  refine ⟨?_, ?_, ?_⟩ <;> decide

/-- In the always-failing environment the two reachable commands never
stop recursing: no amount of fuel lets either workflow mode finish. -/
theorem divEnv_never_terminates :
    ∀ (fuel k : Nat) (c : String), (c = "git a" ∨ c = "git rb") →
      fixGo fuel true divEnv false [c] k = none ∧
      fixGo fuel false divEnv false [c] k = none := by
  intro fuel
  induction fuel with
  | zero => intro k c hc; exact ⟨rfl, rfl⟩
  | succ f ih =>
    intro k c hc
    have hp : divEnv.pushAccessOk = true := rfl
    have hw : divEnv.workspaceAbs = true := rfl
    have hrw : List.map (rewriteCmd divEnv.branch) [c] = [c] := by
      rcases hc with rfl | rfl <;> decide
    have hal : isAllowed c = true := by
      rcases hc with rfl | rfl <;> decide
    have hex : divEnv.exec k c = some "exit status 1" := rfl
    have hrb : divEnv.lastRollback = ["git rb"] := rfl
    constructor
    · simp only [fixGo, hrw]
      rw [if_neg (by simp [hp]), if_neg (by simp [hw]), (ih k c hc).2]
    · simp only [fixGo, hal, hex, hrb]
      rw [(ih (k + 1) "git rb" (Or.inr rfl)).1]
      simp

/-- C3 amended: a non-zero command exit with a captured nonempty rollback
set triggers exactly one recursive, non-dry invocation of the workflow on
the rollback commands at that point -- but the captured set is never
cleared, so a failure inside the rollback invocation triggers a further
recursive rollback invocation of the same commands: the recursion is
bounded only by rollback commands ceasing to fail, and with a rollback
command that keeps failing the workflow never terminates. -/
theorem workflow_rollback_recursion :
    (∀ (env : FixEnv) (c : String) (rest : List String) (k fuel : Nat) (msg : String),
        isAllowed c = true →
        env.exec k c = some msg →
        env.lastRollback ≠ [] →
        fixGo (fuel + 1) false env false (c :: rest) k =
          match fixGo fuel true env false env.lastRollback (k + 1) with
          | none => none
          | some (t, j) =>
              some (["RUN: " ++ c, "ERROR: " ++ msg, "AUTO-ROLLBACK"] ++ t ++
                    ["WORKFLOW STOPPED", "__CLOSE__"], j)) ∧
    (∀ fuel : Nat, runFixWorkflow divEnv fuel ["git a"] false = none) := by
  constructor
  · intro env c rest k fuel msg hal hex hrb
    simp only [fixGo, hal, hex]
    cases h : env.lastRollback with
    | nil => exact absurd h hrb
    | cons x xs => simp
  · intro fuel
    unfold runFixWorkflow
    rw [(divEnv_never_terminates fuel 0 "git a" (Or.inl rfl)).1]

theorem workflow_rollback_recursion_witness :
    fixGo 1 false wEnv false ["git x"] 0 = none ∧
    runFixWorkflow divEnv 7 ["git a"] false = none := by
  constructor
  · have h := workflow_rollback_recursion.1 wEnv "git x" [] 0 0 "boom" (by decide) rfl
      (by decide)
    simpa using h
  · exact workflow_rollback_recursion.2 7
